import Mathlib

/-!
Verification development for the per-channel DRAM memory controller
(`src/controller.cc` of DRAMsim3, LRDIMM fork).

The controller-owned state (transaction buffers, pending read/write maps,
return queue, write-drain counter, clock) is embedded directly.  Collaborator
objects that live outside `controller.cc` (`CmdQueue`, `ChannelState`,
`Refresh`, the on-board LRDIMM buffer, statistics) are modelled as oracle
inputs: each tick receives the collaborators' answers (which command the
command queue hands out, whether it will accept a new command, ...) as
explicit parameters, so every theorem quantifies over all possible
collaborator behaviours.

`std::multimap` / `std::map` keyed by the flat address are embedded as
association lists; every operation the source performs on them is per-key
(`count`, `find` = first entry for the key, `erase(it)` = remove that entry,
insertion = append), for which an association list is observationally
equivalent.  `vector::capacity()` is modelled as `trans_queue_size`, the
amount reserved in the constructor.  `assert` statements are diagnostics
(compiled out under NDEBUG) except the LRDIMM response assert in
`ClockTick`, which a claim is explicitly about; it is modelled as an abort
(`Option.none`).  `exit(1)` calls in `IssueCommand` are modelled as aborts.
-/

namespace DRAMsim3

/-- Modelled from the spec (§3): the Transaction record lives in a header
outside `src/`.  `addr` is the flat physical address, `payload` the data
words, `added_cycle` / `complete_cycle` the admission / completion cycles. -/
structure Trans where
  addr : Nat
  is_write : Bool
  is_MRS : Bool
  payload : List Nat
  added_cycle : Nat
  complete_cycle : Nat
  deriving Repr, DecidableEq

/-- DRAM command types, as enumerated by `UpdateCommandStats`. -/
inductive CommandType where
  | READ | READ_PRECHARGE | WRITE | WRITE_PRECHARGE
  | ACTIVATE | PRECHARGE | REFRESH | REFRESH_BANK
  | SREF_ENTER | SREF_EXIT | MRS
  deriving Repr, DecidableEq

/-- A DRAM command.  The decoded (rank, bankgroup, bank, row, column) tuple
is produced by the collaborator `Config::AddressMapping` and consumed only by
collaborators, so only the originating flat address is kept; per-bank
admission tests are oracles keyed on the flat address. -/
structure Command where
  cmd_type : CommandType
  hex_addr : Nat
  deriving Repr, DecidableEq

/-- Modelled from the spec (§3, §4.6): `Command::IsRead` lives in the command
header outside `src/`; a read command is `READ` or its auto-precharge
variant. -/
def Command.IsRead (c : Command) : Bool :=
  c.cmd_type == CommandType.READ || c.cmd_type == CommandType.READ_PRECHARGE

/-- Modelled from the spec (§3, §4.6): a write command is `WRITE` or its
auto-precharge variant. -/
def Command.IsWrite (c : Command) : Bool :=
  c.cmd_type == CommandType.WRITE || c.cmd_type == CommandType.WRITE_PRECHARGE

/-- Modelled from the spec (§4.2, §4.6): the MRS command predicate. -/
def Command.IsMRSCMD (c : Command) : Bool :=
  c.cmd_type == CommandType.MRS

/-- Modelled from the spec: `Command::IsReadWrite` is declared in the command
header outside `src/`.  By its name and by the command taxonomy (§3) it is
the predicate "this command is a read or a write" (a column command), i.e.
`IsRead ∨ IsWrite`; the spec's §9 design note records the dual-issue
comparison built on it as an open question. -/
def Command.IsReadWrite (c : Command) : Bool :=
  c.IsRead || c.IsWrite

/-- The configuration fields `controller.cc` consults.  `close_page` is
`row_buf_policy == "CLOSE_PAGE"`; `unified_queue` selects the unified
transaction queue; `trans_queue_size` is the reserved capacity of each
transaction buffer. -/
structure Config where
  unified_queue : Bool
  close_page : Bool
  trans_queue_size : Nat
  read_delay : Nat
  is_LRDIMM : Bool
  tPDM_RD : Nat
  tRPRE : Nat
  enable_hbm_dual_cmd : Bool
  enable_self_refresh : Bool
  deriving Repr, DecidableEq

/-- The controller-owned mutable state of `controller.cc`. -/
structure CtrlState where
  clk : Nat
  unified_queue : List Trans
  read_queue : List Trans
  write_buffer : List Trans
  mrs_buffer : List Trans
  pending_rd_q : List (Nat × Trans)
  pending_wr_q : List (Nat × Trans)
  return_queue : List Trans
  write_draining : Nat
  deriving Repr, DecidableEq

/-- The freshly constructed controller: empty buffers, `clk_ = 0`,
`write_draining_ = 0`. -/
def initState : CtrlState :=
  { clk := 0, unified_queue := [], read_queue := [], write_buffer := [],
    mrs_buffer := [], pending_rd_q := [], pending_wr_q := [],
    return_queue := [], write_draining := 0 }

/-- `map.count(a)`: number of entries with key `a`. -/
def countKey (q : List (Nat × Trans)) (a : Nat) : Nat :=
  (q.filter (fun p => p.1 == a)).length

/-- `map.find(a)`: the first entry with key `a`, if any. -/
def findKey (q : List (Nat × Trans)) (a : Nat) : Option Trans :=
  (q.find? (fun p => p.1 == a)).map Prod.snd

/-- `map.erase(map.find(a))`: remove the first entry with key `a`. -/
def eraseKey (q : List (Nat × Trans)) (a : Nat) : List (Nat × Trans) :=
  q.eraseP (fun p => p.1 == a)

/-- `it->second.updatePayload(pl)` on `it = map.find(a)`: replace the payload
of the first entry with key `a`. -/
def updateFirstPayload : List (Nat × Trans) → Nat → List Nat → List (Nat × Trans)
  | [], _, _ => []
  | p :: rest, a, pl =>
    if p.1 == a then (p.1, { p.2 with payload := pl }) :: rest
    else p :: updateFirstPayload rest a pl

/-- `Controller::ReturnDoneTrans(clk)` (controller.cc:54-85): walk the return
queue in order; the first entry whose `complete_cycle ≤ clk` is removed and
its `(addr, is_write)` returned (the C++ `bool` second component widens to
`int`); if no entry is ready, return the sentinel `(-1, -1)` and leave the
queue unchanged.  The statistics updates and the LRDIMM `resp_data_` push are
collaborator side effects with no influence on the removal or the returned
pair and are omitted; the LRDIMM-only payload assert is diagnostic. -/
def returnDoneTrans (clk : Nat) : List Trans → List Trans × Int × Int
  | [] => ([], -1, -1)
  | t :: rest =>
    if t.complete_cycle ≤ clk then
      (rest, ((t.addr : Int), if t.is_write then 1 else 0))
    else
      let r := returnDoneTrans clk rest
      (t :: r.1, r.2)

/-- `Controller::WillAcceptTransaction(hex_addr, is_write)`
(controller.cc:200-208): the target buffer must have free capacity
(`capacity()` = the reserved `trans_queue_size`). -/
def willAcceptTransaction (cfg : Config) (st : CtrlState)
    (hex_addr : Nat) (is_write : Bool) : Bool :=
  if cfg.unified_queue then
    st.unified_queue.length < cfg.trans_queue_size
  else if !is_write then
    st.read_queue.length < cfg.trans_queue_size
  else
    st.write_buffer.length < cfg.trans_queue_size

/-- `Controller::AddTransaction(trans)` (controller.cc:223-290).  Stamps
`added_cycle = clk_`, then dispatches on the transaction class:
 * MRS: append to `mrs_buffer_` (before `complete_cycle` is set), then append
   to `return_queue_` with `complete_cycle = clk_ + 1`;
 * write: if no pending write to the address, record it in `pending_wr_q_`
   and append to the unified queue / write buffer; otherwise only overwrite
   the pending entry's payload (`updatePayload`, modelled from the spec §4.2
   as payload replacement since `Transaction` lives outside `src/`); either
   way append to `return_queue_` with `complete_cycle = clk_ + 1`;
 * read: if a pending write to the address exists, forward its payload, set
   `complete_cycle = clk_ + 1` and append to `return_queue_` only (the source
   guards with `count(addr) > 0` and then calls `find`; `findKey` succeeds
   exactly when the count is positive, `findKey_isSome_iff` below); otherwise
   insert into `pending_rd_q_` and, if this is the first entry for the
   address, enqueue into the unified queue / read queue.
Interarrival statistics are collaborator side effects and omitted.  Always
returns `true`. -/
def addTransaction (cfg : Config) (st : CtrlState) (t0 : Trans) :
    CtrlState × Bool :=
  let t := { t0 with added_cycle := st.clk }
  if t.is_MRS then
    let st1 := { st with mrs_buffer := st.mrs_buffer ++ [t] }
    ({ st1 with return_queue :=
        st1.return_queue ++ [{ t with complete_cycle := st.clk + 1 }] }, true)
  else if t.is_write then
    let st1 :=
      if countKey st.pending_wr_q t.addr = 0 then
        let st' := { st with pending_wr_q := st.pending_wr_q ++ [(t.addr, t)] }
        if cfg.unified_queue then
          { st' with unified_queue := st'.unified_queue ++ [t] }
        else
          { st' with write_buffer := st'.write_buffer ++ [t] }
      else
        { st with pending_wr_q := updateFirstPayload st.pending_wr_q t.addr t.payload }
    ({ st1 with return_queue :=
        st1.return_queue ++ [{ t with complete_cycle := st.clk + 1 }] }, true)
  else
    match findKey st.pending_wr_q t.addr with
    | some w =>
      ({ st with return_queue := st.return_queue ++
          [{ t with complete_cycle := st.clk + 1, payload := w.payload }] }, true)
    | none =>
      let st1 := { st with pending_rd_q := st.pending_rd_q ++ [(t.addr, t)] }
      if countKey st1.pending_rd_q t.addr = 1 then
        if cfg.unified_queue then
          ({ st1 with unified_queue := st1.unified_queue ++ [t] }, true)
        else
          ({ st1 with read_queue := st1.read_queue ++ [t] }, true)
      else
        (st1, true)

/-- `Controller::TransToCommand(trans)` (controller.cc:396-408): row-buffer
policy selects plain or auto-precharge read/write; an MRS transaction
overrides the type with `MRS`.  The decoded address produced by
`config_.AddressMapping` is consumed only by collaborators; the command
keeps the flat address. -/
def transToCommand (cfg : Config) (t : Trans) : Command :=
  let ct :=
    if cfg.close_page then
      (if t.is_write then CommandType.WRITE_PRECHARGE else CommandType.READ_PRECHARGE)
    else
      (if t.is_write then CommandType.WRITE else CommandType.READ)
  { cmd_type := if t.is_MRS then CommandType.MRS else ct, hex_addr := t.addr }

/-- The write-drain entry decision of `Controller::ScheduleTransaction`
(controller.cc:294-300): while `write_draining_ == 0` in split-queue mode,
enter drain (snapshot the write-buffer length) when the buffer is at
capacity, or holds more than 8 entries while the command queue is empty.
`cmdQueueEmpty` is the collaborator answer `cmd_queue_.QueueEmpty()`. -/
def writeDrainEnter (cfg : Config) (cmdQueueEmpty : Bool) (st : CtrlState) : Nat :=
  if st.write_draining = 0 ∧ cfg.unified_queue = false then
    if cfg.trans_queue_size ≤ st.write_buffer.length ∨
        (8 < st.write_buffer.length ∧ cmdQueueEmpty = true) then
      st.write_buffer.length
    else
      st.write_draining
  else
    st.write_draining

/-- The candidate walk of `Controller::ScheduleTransaction`
(controller.cc:308-347), non-MRS mode.  Walks the selected queue in order;
the first candidate whose (rank, bankgroup, bank) the command queue will
accept (`willAccept`, the collaborator answer keyed here by the flat address
it is decoded from) is translated and pushed, and removed from the queue —
unless, in split-queue mode, it is a write with a read still pending on the
same address, in which case the drain is aborted (`write_draining_ = 0`) and
nothing is scheduled.  A scheduled split-mode write decrements the drain
counter (never taken below zero: writes are only served while the counter is
positive).  Returns the remaining queue, the new drain counter, and the
pushed command, if any. -/
def schedLoop (cfg : Config) (willAccept : Nat → Bool)
    (pendingRd : List (Nat × Trans)) (wd : Nat) :
    List Trans → List Trans × Nat × Option Command
  | [] => ([], wd, none)
  | t :: rest =>
    let cmd := transToCommand cfg t
    if willAccept t.addr then
      if cfg.unified_queue = false ∧ cmd.IsWrite = true then
        if 0 < countKey pendingRd t.addr then (t :: rest, 0, none)
        else (rest, wd - 1, some cmd)
      else
        (rest, wd, some cmd)
    else
      let r := schedLoop cfg willAccept pendingRd wd rest
      (t :: r.1, r.2.1, r.2.2)

/-- `Controller::ScheduleTransaction()` (controller.cc:292-348): the drain
decision, then queue selection — MRS buffer with absolute priority (FIFO:
only its head is examined, admitted only if `cmd_queue_.WillAcceptMRSCommand()`,
`willAcceptMRS` here), else the unified queue, else the write buffer while
draining, else the read queue — then the candidate walk.  Returns the new
state and the command pushed into `cmd_queue_`, if any. -/
def scheduleTransaction (cfg : Config) (willAcceptMRS : Bool)
    (willAccept : Nat → Bool) (cmdQueueEmpty : Bool) (st : CtrlState) :
    CtrlState × Option Command :=
  let wd := writeDrainEnter cfg cmdQueueEmpty st
  match st.mrs_buffer with
  | t :: rest =>
    if willAcceptMRS then
      ({ st with mrs_buffer := rest, write_draining := wd },
        some (transToCommand cfg t))
    else
      ({ st with write_draining := wd }, none)
  | [] =>
    if cfg.unified_queue then
      let r := schedLoop cfg willAccept st.pending_rd_q wd st.unified_queue
      ({ st with unified_queue := r.1, write_draining := r.2.1 }, r.2.2)
    else if 0 < wd then
      let r := schedLoop cfg willAccept st.pending_rd_q wd st.write_buffer
      ({ st with write_buffer := r.1, write_draining := r.2.1 }, r.2.2)
    else
      let r := schedLoop cfg willAccept st.pending_rd_q wd st.read_queue
      ({ st with read_queue := r.1, write_draining := r.2.1 }, r.2.2)

/-- The `while (num_reads > 0)` loop of `Controller::IssueCommand`
(controller.cc:366-373): `num_reads` times, find the first pending entry for
the address, stamp its completion cycle `cc`, append it to the return queue
and erase it from the pending map. -/
def popReads (a : Nat) (cc : Nat) :
    Nat → List (Nat × Trans) → List Trans → List (Nat × Trans) × List Trans
  | 0, prd, rq => (prd, rq)
  | n + 1, prd, rq =>
    match findKey prd a with
    | none => (prd, rq)
    | some t => popReads a cc n (eraseKey prd a)
        (rq ++ [{ t with complete_cycle := cc }])

/-- `Controller::IssueCommand(cmd)` (controller.cc:350-394).
 * READ: a pending read entry must exist (`exit(1)` otherwise, modelled as
   `none`); every coalesced pending entry for the address is stamped
   `complete_cycle = clk_ + read_delay` (plus `tPDM_RD + tRPRE` when
   LRDIMM), appended to `return_queue_` and removed from `pending_rd_q_`.
 * WRITE: the single pending write entry must exist (`exit(1)` otherwise);
   it is erased (its payload hand-off to the LRDIMM on-board buffer and the
   latency statistic are collaborator side effects).
 * Any other type (MRS, ACTIVATE, PRECHARGE, refresh and self-refresh
   commands): no pending-queue bookkeeping.
The trace write, stats and `channel_state_` updates are collaborator side
effects and omitted. -/
def issueCommand (cfg : Config) (st : CtrlState) (cmd : Command) :
    Option CtrlState :=
  if cmd.IsRead then
    let n := countKey st.pending_rd_q cmd.hex_addr
    if n = 0 then none
    else
      let cc := st.clk + cfg.read_delay +
        (if cfg.is_LRDIMM then cfg.tPDM_RD + cfg.tRPRE else 0)
      let r := popReads cmd.hex_addr cc n st.pending_rd_q st.return_queue
      some { st with pending_rd_q := r.1, return_queue := r.2 }
  else if cmd.IsWrite then
    match findKey st.pending_wr_q cmd.hex_addr with
    | none => none
    | some _ =>
      some { st with pending_wr_q := eraseKey st.pending_wr_q cmd.hex_addr }
  else
    some st

/-- The LRDIMM read-response merge loop of `Controller::ClockTick`
(controller.cc:103-110): every return-queue entry whose address equals the
response's `hex_addr` — reads and posted write acknowledgements alike — has
its payload resized and overwritten with the response payload; the second
component is the `isResp` flag (did any entry match). -/
def lrdimmMerge (rq : List Trans) (a : Nat) (pl : List Nat) :
    List Trans × Bool :=
  match rq with
  | [] => ([], false)
  | t :: rest =>
    let r := lrdimmMerge rest a pl
    if t.addr == a then ({ t with payload := pl } :: r.1, true)
    else (t :: r.1, r.2)

/-- The collaborator answers consumed by one `Controller::ClockTick()`:
 * `resp`: the valid read response delivered by `BufferOnBoard_.getRDResp()`
   (its flat address and payload), if any;
 * `firstCmd`: the valid command produced by `cmd_queue_.FinishRefresh()`
   (when a refresh is waiting) or `cmd_queue_.GetCommandToIssue()`, if any;
 * `secondCmd`: the second `cmd_queue_.GetCommandToIssue()` answer consulted
   for HBM dual issue, if valid;
 * `srefCmd`: the ready command `channel_state_.GetReadyCommand` returns for
   the first rank whose self-refresh entry/exit attempt succeeds, if any
   (such commands govern power state and never carry pending-queue
   bookkeeping, but are passed through `IssueCommand` as the source does);
 * `willAcceptMRS`, `willAccept`, `cmdQueueEmpty`: the command-queue
   admission answers used by `ScheduleTransaction`. -/
structure TickOracle where
  resp : Option (Nat × List Nat)
  firstCmd : Option Command
  secondCmd : Option Command
  srefCmd : Option Command
  willAcceptMRS : Bool
  willAccept : Nat → Bool
  cmdQueueEmpty : Bool

/-- The LRDIMM phase of `Controller::ClockTick` (controller.cc:97-114): when
LRDIMM is enabled and a valid read response arrived, merge its payload into
every matching return-queue entry; `assert(isResp)` aborts when no entry
matches. -/
def lrdimmPhase (cfg : Config) (resp : Option (Nat × List Nat))
    (st : CtrlState) : Option CtrlState :=
  if cfg.is_LRDIMM then
    match resp with
    | some (a, pl) =>
      let r := lrdimmMerge st.return_queue a pl
      if r.2 then some { st with return_queue := r.1 } else none
    | none => some st
  else some st

/-- The command-issue phase of `Controller::ClockTick`
(controller.cc:116-191): issue the selected command if any; when HBM dual
issue is configured and a second valid command's `IsReadWrite` differs from
the first's, issue it in the same tick; when no command was issued and
self-refresh is enabled, issue the first ready self-refresh transition
command, if any.  Returns the updated state and the list of issued commands
in issue order. -/
def issuePhase (cfg : Config) (orc : TickOracle) (st : CtrlState) :
    Option (CtrlState × List Command) :=
  match orc.firstCmd with
  | none =>
    if cfg.enable_self_refresh then
      match orc.srefCmd with
      | some c =>
        match issueCommand cfg st c with
        | some st' => some (st', [c])
        | none => none
      | none => some (st, [])
    else some (st, [])
  | some c =>
    match issueCommand cfg st c with
    | none => none
    | some st1 =>
      if cfg.enable_hbm_dual_cmd then
        match orc.secondCmd with
        | some c2 =>
          if c2.IsReadWrite ≠ c.IsReadWrite then
            match issueCommand cfg st1 c2 with
            | some st2 => some (st2, [c, c2])
            | none => none
          else some (st1, [c])
        | none => some (st1, [c])
      else some (st1, [c])

/-- `Controller::ClockTick()` (controller.cc:94-198): refresh counter tick
(collaborator), LRDIMM response merge, command issue (with optional HBM dual
issue and self-refresh transitions), rank power accounting (statistics
only), `ScheduleTransaction()`, then `clk_++` and the command-queue tick
(collaborator).  Returns the next state and the issued commands, or `none`
when the tick aborts (`exit(1)` / the LRDIMM response assert). -/
def clockTick (cfg : Config) (orc : TickOracle) (st : CtrlState) :
    Option (CtrlState × List Command) :=
  match lrdimmPhase cfg orc.resp st with
  | none => none
  | some st1 =>
    match issuePhase cfg orc st1 with
    | none => none
    | some (st2, issued) =>
      let r := scheduleTransaction cfg orc.willAcceptMRS orc.willAccept
        orc.cmdQueueEmpty st2
      some ({ r.1 with clk := r.1.clk + 1 }, issued)

/-- One observable interaction with the controller: an admission
(`AddTransaction`; the driver is assumed to have consulted
`WillAcceptTransaction`, which has no side effects), a cycle tick under some
collaborator behaviour, or a completion drain (`ReturnDoneTrans`). -/
inductive Step (cfg : Config) : CtrlState → CtrlState → Prop
  | add {st : CtrlState} (t : Trans) :
      Step cfg st (addTransaction cfg st t).1
  | tick {st st' : CtrlState} (orc : TickOracle) (cmds : List Command)
      (h : clockTick cfg orc st = some (st', cmds)) :
      Step cfg st st'
  | drain {st : CtrlState} (clk : Nat) :
      Step cfg st { st with return_queue := (returnDoneTrans clk st.return_queue).1 }

/-- The states a controller with configuration `cfg` can reach from
construction. -/
inductive Reachable (cfg : Config) : CtrlState → Prop
  | init : Reachable cfg initState
  | step {st st' : CtrlState} :
      Reachable cfg st → Step cfg st st' → Reachable cfg st'

/-! ### Concrete configurations, transactions, oracles and states used to
instantiate the theorems below on explicit inputs. -/

/-- A unified-queue configuration (open page, queue size 4, read delay 10). -/
def cfgU : Config :=
  { unified_queue := true, close_page := false, trans_queue_size := 4,
    read_delay := 10, is_LRDIMM := false, tPDM_RD := 0, tRPRE := 0,
    enable_hbm_dual_cmd := false, enable_self_refresh := false }

/-- A split-queue configuration with queue size 1. -/
def cfgS : Config :=
  { unified_queue := false, close_page := false, trans_queue_size := 1,
    read_delay := 10, is_LRDIMM := false, tPDM_RD := 0, tRPRE := 0,
    enable_hbm_dual_cmd := false, enable_self_refresh := false }

/-- A split-queue configuration with queue size 20 (for the lower-threshold
write-drain boundary). -/
def cfgB : Config :=
  { unified_queue := false, close_page := false, trans_queue_size := 20,
    read_delay := 10, is_LRDIMM := false, tPDM_RD := 0, tRPRE := 0,
    enable_hbm_dual_cmd := false, enable_self_refresh := false }

/-- A unified-queue configuration with HBM dual issue enabled. -/
def cfgH : Config :=
  { unified_queue := true, close_page := false, trans_queue_size := 4,
    read_delay := 10, is_LRDIMM := false, tPDM_RD := 0, tRPRE := 0,
    enable_hbm_dual_cmd := true, enable_self_refresh := false }

/-- An LRDIMM configuration (on-board buffer latencies 4 and 2). -/
def cfgL : Config :=
  { unified_queue := true, close_page := false, trans_queue_size := 4,
    read_delay := 10, is_LRDIMM := true, tPDM_RD := 4, tRPRE := 2,
    enable_hbm_dual_cmd := false, enable_self_refresh := false }

def tRd256 : Trans :=
  { addr := 256, is_write := false, is_MRS := false, payload := [],
    added_cycle := 0, complete_cycle := 0 }

def tWr256 : Trans :=
  { addr := 256, is_write := true, is_MRS := false, payload := [2],
    added_cycle := 0, complete_cycle := 0 }

def tWr256b : Trans :=
  { addr := 256, is_write := true, is_MRS := false, payload := [3],
    added_cycle := 0, complete_cycle := 0 }

def tRd9 : Trans :=
  { addr := 9, is_write := false, is_MRS := false, payload := [],
    added_cycle := 0, complete_cycle := 0 }

def tWr4 : Trans :=
  { addr := 4, is_write := true, is_MRS := false, payload := [7],
    added_cycle := 0, complete_cycle := 0 }

def tRd7 : Trans :=
  { addr := 7, is_write := false, is_MRS := false, payload := [],
    added_cycle := 0, complete_cycle := 0 }

def wr7 : Trans :=
  { addr := 7, is_write := true, is_MRS := false, payload := [3],
    added_cycle := 0, complete_cycle := 0 }

def tWr7b : Trans :=
  { addr := 7, is_write := true, is_MRS := false, payload := [9],
    added_cycle := 2, complete_cycle := 0 }

/-- An idle tick: no LRDIMM response, the command queue has nothing ready to
issue, and it will accept any new command. -/
def orcIdle : TickOracle :=
  { resp := none, firstCmd := none, secondCmd := none, srefCmd := none,
    willAcceptMRS := true, willAccept := fun _ => true, cmdQueueEmpty := false }

/-- A tick in which the command queue hands out `READ 9` and then
`ACTIVATE 4` (a column command paired with a row command). -/
def orcDual : TickOracle :=
  { resp := none,
    firstCmd := some { cmd_type := CommandType.READ, hex_addr := 9 },
    secondCmd := some { cmd_type := CommandType.ACTIVATE, hex_addr := 4 },
    srefCmd := none, willAcceptMRS := true, willAccept := fun _ => true,
    cmdQueueEmpty := false }

/-- A tick in which the command queue hands out `READ 9` and then
`WRITE 4` (two column commands). -/
def orcRW : TickOracle :=
  { resp := none,
    firstCmd := some { cmd_type := CommandType.READ, hex_addr := 9 },
    secondCmd := some { cmd_type := CommandType.WRITE, hex_addr := 4 },
    srefCmd := none, willAcceptMRS := true, willAccept := fun _ => true,
    cmdQueueEmpty := false }

/-- A tick delivering the LRDIMM read response `(addr 5, payload [42])`. -/
def orcResp5 : TickOracle :=
  { resp := some (5, [42]), firstCmd := none, secondCmd := none,
    srefCmd := none, willAcceptMRS := true, willAccept := fun _ => true,
    cmdQueueEmpty := false }

/-- After admitting `read 256` into a fresh unified-queue controller. -/
def stC1a : CtrlState := (addTransaction cfgU initState tRd256).1

/-- After one idle tick scheduled the read: the READ command sits in the
command queue, `pending_rd_q` still holds address 256. -/
def stC1b : CtrlState :=
  { clk := 1, unified_queue := [], read_queue := [], write_buffer := [],
    mrs_buffer := [], pending_rd_q := [(256, tRd256)], pending_wr_q := [],
    return_queue := [], write_draining := 0 }

/-- After then admitting `write 256`: the write sits in the unified queue
while the read to the same address is still pending. -/
def stC1 : CtrlState := (addTransaction cfgU stC1b tWr256).1

/-- A split-queue controller right after admitting one write (the write
buffer is at its capacity 1). -/
def stC1w : CtrlState := (addTransaction cfgS initState tWr256).1

/-- Two coalesced pending reads on address 3. -/
def rd3a : Trans :=
  { addr := 3, is_write := false, is_MRS := false, payload := [],
    added_cycle := 1, complete_cycle := 0 }

def rd3b : Trans :=
  { addr := 3, is_write := false, is_MRS := false, payload := [],
    added_cycle := 2, complete_cycle := 0 }

def stC2 : CtrlState :=
  { initState with
      clk := 5,
      pending_rd_q := [(3, rd3a), (3, rd3b)] }

/-- A pending write with payload `[3]` on address 7. -/
def stC3 : CtrlState :=
  { initState with
      clk := 4,
      pending_wr_q := [(7, wr7)],
      write_buffer := [wr7] }

/-- Nine distinct writes buffered in a split-queue controller. -/
def wrAt (i : Nat) : Trans :=
  { addr := 64 * i, is_write := true, is_MRS := false, payload := [i],
    added_cycle := 0, complete_cycle := 0 }

def stC7 : CtrlState :=
  { initState with write_buffer := (List.range 9).map wrAt }

/-- One pending read on address 9. -/
def stC8w : CtrlState := { initState with pending_rd_q := [(9, tRd9)] }

/-- The state `clockTick cfgH orcDual stC8w` produces: the read completed at
`clk + read_delay`, both commands issued, clock advanced. -/
def rd9done : Trans :=
  { addr := 9, is_write := false, is_MRS := false, payload := [],
    added_cycle := 0, complete_cycle := 10 }

def stC8w' : CtrlState :=
  { clk := 1, unified_queue := [], read_queue := [], write_buffer := [],
    mrs_buffer := [], pending_rd_q := [], pending_wr_q := [],
    return_queue := [rd9done], write_draining := 0 }

/-- Reachable HBM state with a pending read on 9 and a pending write on 4,
so both `READ 9` and `WRITE 4` are plausible command-queue answers. -/
def stC8a : CtrlState := (addTransaction cfgH initState tRd9).1

def stC8 : CtrlState := (addTransaction cfgH stC8a tWr4).1

/-- After two writes to address 256 (the second merges into the first's
pending entry). -/
def stC5 : CtrlState :=
  (addTransaction cfgS (addTransaction cfgS initState tWr256).1 tWr256b).1

/-- A full write buffer (length 1 = capacity of `cfgS`). -/
def wr12 : Trans :=
  { addr := 12, is_write := true, is_MRS := false, payload := [1],
    added_cycle := 0, complete_cycle := 0 }

def stC9 : CtrlState :=
  { initState with write_buffer := [wr12] }

/-- A return queue holding a write acknowledgement on address 5, an entry on
address 6, and a read on address 5. -/
def wrAck5 : Trans :=
  { addr := 5, is_write := true, is_MRS := false, payload := [],
    added_cycle := 0, complete_cycle := 1 }

def rd6 : Trans :=
  { addr := 6, is_write := false, is_MRS := false, payload := [],
    added_cycle := 0, complete_cycle := 9 }

def rd5 : Trans :=
  { addr := 5, is_write := false, is_MRS := false, payload := [],
    added_cycle := 0, complete_cycle := 9 }

def rqC10 : List Trans := [wrAck5, rd6, rd5]

/-! ### Association-list helper lemmas -/

theorem countKey_nil (a : Nat) : countKey [] a = 0 := rfl

theorem countKey_cons (p : Nat × Trans) (q : List (Nat × Trans)) (a : Nat) :
    countKey (p :: q) a = (if p.1 == a then 1 else 0) + countKey q a := by
  by_cases h : (p.1 == a) = true <;>
    simp [countKey, List.filter_cons, h] <;> omega

theorem countKey_cons_pos (p : Nat × Trans) (q : List (Nat × Trans)) (a : Nat)
    (h : (p.1 == a) = true) : countKey (p :: q) a = countKey q a + 1 := by
  simp [countKey, List.filter_cons, h]

theorem countKey_cons_neg (p : Nat × Trans) (q : List (Nat × Trans)) (a : Nat)
    (h : (p.1 == a) = false) : countKey (p :: q) a = countKey q a := by
  simp [countKey, List.filter_cons, h]

theorem countKey_append (q r : List (Nat × Trans)) (a : Nat) :
    countKey (q ++ r) a = countKey q a + countKey r a := by
  simp [countKey, List.filter_append]

theorem findKey_isSome_iff (q : List (Nat × Trans)) (a : Nat) :
    (findKey q a).isSome = true ↔ 0 < countKey q a := by
  induction q with
  | nil => simp [findKey, countKey]
  | cons p rest ih =>
    by_cases h : (p.1 == a) = true
    · have hf : findKey (p :: rest) a = some p.2 := by
        simp [findKey, List.find?_cons, h]
      rw [hf, countKey_cons_pos p rest a h]
      simp
    · have h' : (p.1 == a) = false := by simpa using h
      have hf : findKey (p :: rest) a = findKey rest a := by
        simp [findKey, List.find?_cons, h']
      rw [hf, countKey_cons_neg p rest a h', ih]

theorem countKey_eraseKey_le (q : List (Nat × Trans)) (a b : Nat) :
    countKey (eraseKey q a) b ≤ countKey q b := by
  induction q with
  | nil => simp [eraseKey]
  | cons p rest ih =>
    by_cases h : (p.1 == a) = true
    · have he : eraseKey (p :: rest) a = rest := by
        simp [eraseKey, List.eraseP_cons, h]
      rw [he]
      by_cases hb : (p.1 == b) = true
      · rw [countKey_cons_pos p rest b hb]; omega
      · rw [countKey_cons_neg p rest b (by simpa using hb)]
    · have h' : (p.1 == a) = false := by simpa using h
      have he : eraseKey (p :: rest) a = p :: eraseKey rest a := by
        simp [eraseKey, List.eraseP_cons, h']
      rw [he]
      by_cases hb : (p.1 == b) = true
      · rw [countKey_cons_pos p _ b hb, countKey_cons_pos p rest b hb]; omega
      · have hb' : (p.1 == b) = false := by simpa using hb
        rw [countKey_cons_neg p _ b hb', countKey_cons_neg p rest b hb']
        exact ih

theorem updateFirstPayload_countKey (q : List (Nat × Trans)) (b : Nat)
    (pl : List Nat) (a : Nat) :
    countKey (updateFirstPayload q b pl) a = countKey q a := by
  induction q with
  | nil => rfl
  | cons p rest ih =>
    by_cases h : (p.1 == b) = true <;>
      simp [updateFirstPayload, h, countKey_cons, ih]

theorem filter_ne_of_countKey_zero (q : List (Nat × Trans)) (a : Nat)
    (h : countKey q a = 0) : q.filter (fun p => p.1 != a) = q := by
  induction q with
  | nil => rfl
  | cons p rest ih =>
    by_cases hp : (p.1 == a) = true
    · rw [countKey_cons_pos p rest a hp] at h
      simp at h
    · have hp' : (p.1 == a) = false := by simpa using hp
      rw [countKey_cons_neg p rest a hp'] at h
      have hne : (p.1 != a) = true := by simp [bne, hp']
      simp only [List.filter_cons, hne, if_true, ih h]

theorem filter_eq_nil_of_countKey_zero (q : List (Nat × Trans)) (a : Nat)
    (h : countKey q a = 0) : q.filter (fun p => p.1 == a) = [] := by
  have : (q.filter (fun p => p.1 == a)).length = 0 := h
  exact List.length_eq_zero.mp this

/-! ### Characterization of the pending-read pop loop -/

theorem popReads_cons_ne (a cc : Nat) (p : Nat × Trans)
    (hp : (p.1 == a) = false) :
    ∀ (n : Nat) (q : List (Nat × Trans)) (rq : List Trans),
      popReads a cc n (p :: q) rq =
        (p :: (popReads a cc n q rq).1, (popReads a cc n q rq).2) := by
  intro n
  induction n with
  | zero => intro q rq; rfl
  | succ n ih =>
    intro q rq
    have hfind : findKey (p :: q) a = findKey q a := by
      simp [findKey, List.find?_cons, hp]
    have herase : eraseKey (p :: q) a = p :: eraseKey q a := by
      simp [eraseKey, List.eraseP_cons, hp]
    cases hf : findKey q a with
    | none => simp [popReads, hfind, hf]
    | some t => simp [popReads, hfind, hf, herase, ih]

theorem popReads_spec (a cc : Nat) :
    ∀ (q : List (Nat × Trans)) (n : Nat) (rq : List Trans),
      countKey q a = n →
      popReads a cc n q rq =
        (q.filter (fun p => p.1 != a),
          rq ++ (q.filter (fun p => p.1 == a)).map
            (fun p => { p.2 with complete_cycle := cc })) := by
  intro q
  induction q with
  | nil =>
    intro n rq hn
    simp [countKey] at hn
    subst hn
    simp [popReads]
  | cons p rest ih =>
    intro n rq hn
    by_cases hp : (p.1 == a) = true
    · rw [countKey_cons_pos p rest a hp] at hn
      subst hn
      have hfind : findKey (p :: rest) a = some p.2 := by
        simp [findKey, List.find?_cons, hp]
      have herase : eraseKey (p :: rest) a = rest := by
        simp [eraseKey, List.eraseP_cons, hp]
      simp only [popReads, hfind, herase]
      rw [ih (countKey rest a) _ rfl]
      have hne : (p.1 != a) = false := by simp [bne, hp]
      have h1 : List.filter (fun p => p.1 != a) (p :: rest) =
          List.filter (fun p => p.1 != a) rest := by
        simp [List.filter_cons, hne]
      have h2 : List.filter (fun p => p.1 == a) (p :: rest) =
          p :: List.filter (fun p => p.1 == a) rest := by
        simp [List.filter_cons, hp]
      rw [h1, h2]
      simp
    · have hp' : (p.1 == a) = false := by simpa using hp
      rw [countKey_cons_neg p rest a hp'] at hn
      rw [popReads_cons_ne a cc p hp', ih n rq hn]
      have hne : (p.1 != a) = true := by simp [bne, hp']
      have h1 : List.filter (fun p => p.1 != a) (p :: rest) =
          p :: List.filter (fun p => p.1 != a) rest := by
        simp [List.filter_cons, hne]
      have h2 : List.filter (fun p => p.1 == a) (p :: rest) =
          List.filter (fun p => p.1 == a) rest := by
        simp [List.filter_cons, hp']
      rw [h1, h2]

/-! ### Claim theorems about `IssueCommand` and `AddTransaction` -/

/-- C6: `return_done_transactions(clk)` removes and returns exactly the first
entry of `return_queue` (in insertion order) whose `complete_cycle ≤ clk`,
returning its `(addr, is_write)`; an unready entry does not prevent a later
ready entry from being returned; at most one entry is removed per call
(`List.eraseP` removes exactly the first match, or nothing); and if no entry
is ready the queue is left unchanged (`eraseP` of an unmatched predicate) and
the sentinel `(-1, -1)` is returned. -/
theorem c6_return_done_first_ready (clk : Nat) (q : List Trans) :
    returnDoneTrans clk q =
      (q.eraseP (fun t => decide (t.complete_cycle ≤ clk)),
        match q.find? (fun t => decide (t.complete_cycle ≤ clk)) with
        | some t => (((t.addr : Int), if t.is_write then 1 else 0) : Int × Int)
        | none => (-1, -1)) := by
  induction q with
  | nil => simp [returnDoneTrans]
  | cons t rest ih =>
    by_cases h : t.complete_cycle ≤ clk
    · simp [returnDoneTrans, h, List.eraseP_cons, List.find?]
    · simp [returnDoneTrans, h, ih, List.eraseP_cons, List.find?]

/-- C2: when `issue_command` processes a READ command with at least one entry
in `pending_rd_q` for its address, every pending entry at that address is
given `complete_cycle = clk + read_delay` (plus `tPDM_RD + tRPRE` when
`is_LRDIMM`), appended to `return_queue` in pending order, and removed from
`pending_rd_q` — so all reads coalesced on one address receive the same
completion cycle. -/
theorem c2_read_coalesced_completion (cfg : Config) (st : CtrlState)
    (c : Command) (hr : c.IsRead = true)
    (h : 0 < countKey st.pending_rd_q c.hex_addr) :
    issueCommand cfg st c = some { st with
      pending_rd_q := st.pending_rd_q.filter (fun p => p.1 != c.hex_addr),
      return_queue := st.return_queue ++
        (st.pending_rd_q.filter (fun p => p.1 == c.hex_addr)).map
          (fun p => { p.2 with complete_cycle := st.clk + cfg.read_delay +
            (if cfg.is_LRDIMM then cfg.tPDM_RD + cfg.tRPRE else 0) }) } := by
  have hn : countKey st.pending_rd_q c.hex_addr ≠ 0 := Nat.pos_iff_ne_zero.mp h
  simp only [issueCommand, hr, if_true, hn, if_false]
  rw [popReads_spec _ _ st.pending_rd_q _ st.return_queue rfl]

/-- C3: a read admitted while `pending_wr_q` contains its address is
forwarded: its payload becomes the pending write's payload, its
`complete_cycle` is the admission clock plus one, it is appended to
`return_queue`, and it is inserted neither into `pending_rd_q` nor into the
read/unified queue (so no DRAM command is ever generated for it). -/
theorem c3_read_after_write_forwarding (cfg : Config) (st : CtrlState)
    (t : Trans) (w : Trans) (hr : t.is_write = false) (hm : t.is_MRS = false)
    (hp : findKey st.pending_wr_q t.addr = some w) :
    (addTransaction cfg st t).2 = true ∧
    (addTransaction cfg st t).1.return_queue = st.return_queue ++
      [{ t with
          added_cycle := st.clk,
          complete_cycle := st.clk + 1,
          payload := w.payload }] ∧
    (addTransaction cfg st t).1.pending_rd_q = st.pending_rd_q ∧
    (addTransaction cfg st t).1.read_queue = st.read_queue ∧
    (addTransaction cfg st t).1.unified_queue = st.unified_queue := by
  simp [addTransaction, hr, hm, hp]

/-- C4: every write transaction accepted by `add_transaction` — newly
enqueued or merged into an existing pending write — is appended to
`return_queue` with `complete_cycle = added_cycle + 1` (where
`added_cycle = clk` at admission), and `add_transaction` returns `true`,
independently of when (or whether) the DRAM WRITE command is issued. -/
theorem c4_write_posted_ack (cfg : Config) (st : CtrlState) (t : Trans)
    (hw : t.is_write = true) (hm : t.is_MRS = false) :
    (addTransaction cfg st t).2 = true ∧
    (addTransaction cfg st t).1.return_queue = st.return_queue ++
      [{ t with added_cycle := st.clk, complete_cycle := st.clk + 1 }] := by
  by_cases h0 : countKey st.pending_wr_q t.addr = 0 <;>
    by_cases hu : cfg.unified_queue = true <;>
    simp [addTransaction, hw, hm, h0, hu]

/-- C9: `add_transaction` returns `true` for every transaction of every
class, unconditionally — it contains no capacity test and no rejection path:
even when the target buffer already holds `trans_queue_size` entries the
transaction is enqueued (the backing vector grows past the reserved
capacity; no hypothesis on the buffer length is needed for the growth
equations below) and `true` is returned; the capacity bound is enforced
solely by the caller consulting `will_accept_transaction` first, which is
`false` exactly when the target buffer is full. -/
theorem c9_add_transaction_unconditional (cfg : Config) (st : CtrlState)
    (t : Trans) :
    (addTransaction cfg st t).2 = true ∧
    (t.is_MRS = true →
      (addTransaction cfg st t).1.mrs_buffer.length =
        st.mrs_buffer.length + 1) ∧
    (t.is_MRS = false → t.is_write = true →
      countKey st.pending_wr_q t.addr = 0 → cfg.unified_queue = false →
      (addTransaction cfg st t).1.write_buffer.length =
        st.write_buffer.length + 1) ∧
    (cfg.unified_queue = false →
      willAcceptTransaction cfg st t.addr true =
        decide (st.write_buffer.length < cfg.trans_queue_size)) := by
  refine ⟨?_, ?_, ?_, ?_⟩
  · unfold addTransaction
    dsimp only
    repeat' split
    all_goals rfl
  · intro hm; simp [addTransaction, hm]
  · intro hm hw h0 hu; simp [addTransaction, hm, hw, h0, hu]
  · intro hu; simp [willAcceptTransaction, hu]

/-! ### Structural lemmas about the scheduler and the tick phases -/

theorem schedLoop_wd_le (cfg : Config) (wa : Nat → Bool)
    (prd : List (Nat × Trans)) (wd : Nat) (q : List Trans) :
    (schedLoop cfg wa prd wd q).2.1 ≤ wd := by
  induction q with
  | nil => simp [schedLoop]
  | cons t rest ih =>
    simp only [schedLoop]
    split
    · split
      · split
        · simp
        · simp
      · simp
    · simpa using ih

theorem scheduleTransaction_pending_wr (cfg : Config) (wam : Bool)
    (wa : Nat → Bool) (e : Bool) (st : CtrlState) :
    (scheduleTransaction cfg wam wa e st).1.pending_wr_q = st.pending_wr_q := by
  unfold scheduleTransaction
  dsimp only
  repeat' split
  all_goals rfl

theorem scheduleTransaction_pending_rd (cfg : Config) (wam : Bool)
    (wa : Nat → Bool) (e : Bool) (st : CtrlState) :
    (scheduleTransaction cfg wam wa e st).1.pending_rd_q = st.pending_rd_q := by
  unfold scheduleTransaction
  dsimp only
  repeat' split
  all_goals rfl

theorem scheduleTransaction_mrs_mem (cfg : Config) (wam : Bool)
    (wa : Nat → Bool) (e : Bool) (st : CtrlState) (x : Trans)
    (h : x ∈ (scheduleTransaction cfg wam wa e st).1.mrs_buffer) :
    x ∈ st.mrs_buffer := by
  unfold scheduleTransaction at h
  dsimp only at h
  split at h
  case _ t rest heq =>
    rw [heq]
    split at h
    · dsimp only at h
      exact List.mem_cons_of_mem _ h
    · dsimp only at h
      rw [← heq]
      exact h
  case _ heq =>
    split at h <;> [skip; split at h] <;> dsimp only at h <;> exact h

theorem issueCommand_some_fields (cfg : Config) (st : CtrlState) (c : Command)
    (st' : CtrlState) (h : issueCommand cfg st c = some st') :
    st'.mrs_buffer = st.mrs_buffer ∧ st'.read_queue = st.read_queue ∧
    st'.write_buffer = st.write_buffer ∧
    st'.unified_queue = st.unified_queue ∧
    st'.clk = st.clk ∧ st'.write_draining = st.write_draining := by
  unfold issueCommand at h
  dsimp only at h
  repeat' split at h
  all_goals first
    | exact Option.noConfusion h
    | (simp only [Option.some.injEq] at h
       subst h
       exact ⟨rfl, rfl, rfl, rfl, rfl, rfl⟩)

theorem issueCommand_pending_wr_le (cfg : Config) (st : CtrlState)
    (c : Command) (st' : CtrlState) (h : issueCommand cfg st c = some st')
    (a : Nat) : countKey st'.pending_wr_q a ≤ countKey st.pending_wr_q a := by
  unfold issueCommand at h
  dsimp only at h
  repeat' split at h
  all_goals first
    | exact Option.noConfusion h
    | (simp only [Option.some.injEq] at h
       subst h
       first
         | exact Nat.le_refl _
         | exact countKey_eraseKey_le _ _ _)

theorem lrdimmPhase_some_fields (cfg : Config) (resp : Option (Nat × List Nat))
    (st : CtrlState) (st' : CtrlState) (h : lrdimmPhase cfg resp st = some st') :
    st'.pending_wr_q = st.pending_wr_q ∧ st'.pending_rd_q = st.pending_rd_q ∧
    st'.mrs_buffer = st.mrs_buffer ∧ st'.read_queue = st.read_queue ∧
    st'.write_buffer = st.write_buffer ∧
    st'.unified_queue = st.unified_queue ∧
    st'.clk = st.clk ∧ st'.write_draining = st.write_draining := by
  unfold lrdimmPhase at h
  dsimp only at h
  repeat' split at h
  all_goals first
    | exact Option.noConfusion h
    | (simp only [Option.some.injEq] at h
       subst h
       exact ⟨rfl, rfl, rfl, rfl, rfl, rfl, rfl, rfl⟩)

theorem issuePhase_effects (cfg : Config) (orc : TickOracle) (st : CtrlState)
    (st' : CtrlState) (cmds : List Command)
    (h : issuePhase cfg orc st = some (st', cmds)) :
    st'.mrs_buffer = st.mrs_buffer ∧ st'.read_queue = st.read_queue ∧
    st'.write_buffer = st.write_buffer ∧
    st'.unified_queue = st.unified_queue ∧
    st'.clk = st.clk ∧ st'.write_draining = st.write_draining ∧
    (∀ a, countKey st'.pending_wr_q a ≤ countKey st.pending_wr_q a) := by
  unfold issuePhase at h
  split at h
  · -- firstCmd = none
    split at h
    · split at h
      · -- srefCmd = some c
        split at h
        case _ st1 hic =>
          simp only [Option.some.injEq, Prod.mk.injEq] at h
          obtain ⟨h1, _⟩ := h
          subst h1
          obtain ⟨e1, e2, e3, e4, e5, e6⟩ := issueCommand_some_fields cfg st _ _ hic
          exact ⟨e1, e2, e3, e4, e5, e6, issueCommand_pending_wr_le cfg st _ _ hic⟩
        case _ hic => exact absurd h (by simp)
      · simp only [Option.some.injEq, Prod.mk.injEq] at h
        obtain ⟨h1, _⟩ := h
        subst h1
        exact ⟨rfl, rfl, rfl, rfl, rfl, rfl, fun a => Nat.le_refl _⟩
    · simp only [Option.some.injEq, Prod.mk.injEq] at h
      obtain ⟨h1, _⟩ := h
      subst h1
      exact ⟨rfl, rfl, rfl, rfl, rfl, rfl, fun a => Nat.le_refl _⟩
  · -- firstCmd = some c
    split at h
    case _ hic => exact absurd h (by simp)
    case _ c st1 hic =>
      obtain ⟨e1, e2, e3, e4, e5, e6⟩ := issueCommand_some_fields cfg st _ _ hic
      have ple := issueCommand_pending_wr_le cfg st _ _ hic
      split at h
      · split at h
        · split at h
          · split at h
            case _ st2 hic2 =>
              simp only [Option.some.injEq, Prod.mk.injEq] at h
              obtain ⟨h1, _⟩ := h
              subst h1
              obtain ⟨f1, f2, f3, f4, f5, f6⟩ :=
                issueCommand_some_fields cfg st1 _ _ hic2
              refine ⟨f1.trans e1, f2.trans e2, f3.trans e3, f4.trans e4,
                f5.trans e5, f6.trans e6, fun a => ?_⟩
              exact Nat.le_trans (issueCommand_pending_wr_le cfg st1 _ _ hic2 a)
                (ple a)
            case _ hic2 => exact absurd h (by simp)
          · simp only [Option.some.injEq, Prod.mk.injEq] at h
            obtain ⟨h1, _⟩ := h
            subst h1
            exact ⟨e1, e2, e3, e4, e5, e6, ple⟩
        · simp only [Option.some.injEq, Prod.mk.injEq] at h
          obtain ⟨h1, _⟩ := h
          subst h1
          exact ⟨e1, e2, e3, e4, e5, e6, ple⟩
      · simp only [Option.some.injEq, Prod.mk.injEq] at h
        obtain ⟨h1, _⟩ := h
        subst h1
        exact ⟨e1, e2, e3, e4, e5, e6, ple⟩

theorem clockTick_effects (cfg : Config) (orc : TickOracle) (st : CtrlState)
    (st' : CtrlState) (cmds : List Command)
    (h : clockTick cfg orc st = some (st', cmds)) :
    (∀ x ∈ st'.mrs_buffer, x ∈ st.mrs_buffer) ∧
    (∀ a, countKey st'.pending_wr_q a ≤ countKey st.pending_wr_q a) := by
  unfold clockTick at h
  split at h
  case _ hl => exact absurd h (by simp)
  case _ st1 hl =>
    split at h
    case _ hi => exact absurd h (by simp)
    case _ st2 issued hi =>
      simp only [Option.some.injEq, Prod.mk.injEq] at h
      obtain ⟨h1, _⟩ := h
      subst h1
      obtain ⟨l1, l2, l3, _⟩ := lrdimmPhase_some_fields cfg orc.resp st st1 hl
      obtain ⟨i1, _, _, _, _, _, iwr⟩ := issuePhase_effects cfg orc st1 st2 issued hi
      constructor
      · intro x hx
        have hx2 : x ∈ st2.mrs_buffer := by
          have := scheduleTransaction_mrs_mem cfg orc.willAcceptMRS
            orc.willAccept orc.cmdQueueEmpty st2 x
          exact this hx
        rw [i1, l3] at hx2
        exact hx2
      · intro a
        have hs : (scheduleTransaction cfg orc.willAcceptMRS orc.willAccept
            orc.cmdQueueEmpty st2).1.pending_wr_q = st2.pending_wr_q :=
          scheduleTransaction_pending_wr _ _ _ _ _
        calc countKey (scheduleTransaction cfg orc.willAcceptMRS orc.willAccept
              orc.cmdQueueEmpty st2).1.pending_wr_q a
            = countKey st2.pending_wr_q a := by rw [hs]
          _ ≤ countKey st1.pending_wr_q a := iwr a
          _ = countKey st.pending_wr_q a := by rw [l1]

theorem countKey_singleton_pos (k : Nat) (v : Trans) (a : Nat)
    (h : (k == a) = true) : countKey [(k, v)] a = 1 := by
  simp [countKey, h]

theorem countKey_singleton_neg (k : Nat) (v : Trans) (a : Nat)
    (h : (k == a) = false) : countKey [(k, v)] a = 0 := by
  simp [countKey, h]

theorem addTransaction_mrs_mem (cfg : Config) (st : CtrlState) (t : Trans)
    (x : Trans) (hx : x ∈ (addTransaction cfg st t).1.mrs_buffer) :
    x ∈ st.mrs_buffer ∨ x.is_MRS = true := by
  unfold addTransaction at hx
  dsimp only at hx
  split at hx
  case isTrue hm =>
    rcases List.mem_append.mp hx with h | h
    · exact Or.inl h
    · right
      have hxx : x = { t with added_cycle := st.clk } := by simpa using h
      rw [hxx]
      exact hm
  case isFalse hm =>
    repeat' split at hx
    all_goals exact Or.inl hx

theorem addTransaction_pending_wr_le (cfg : Config) (st : CtrlState)
    (t : Trans) (a : Nat) (inv : countKey st.pending_wr_q a ≤ 1) :
    countKey (addTransaction cfg st t).1.pending_wr_q a ≤ 1 := by
  unfold addTransaction
  dsimp only
  split
  · exact inv
  · split
    · split
      case isTrue h0 =>
        have happ : ∀ v : Trans,
            countKey (st.pending_wr_q ++ [(t.addr, v)]) a ≤ 1 := by
          intro v
          rw [countKey_append]
          by_cases hta : (t.addr == a) = true
          · have hta' : t.addr = a := by simpa using hta
            rw [countKey_singleton_pos _ _ _ hta, ← hta', h0]
          · have hta' : (t.addr == a) = false := by simpa using hta
            rw [countKey_singleton_neg _ _ _ hta']
            omega
        split
        · exact happ _
        · exact happ _
      case isFalse h0 =>
        rw [updateFirstPayload_countKey]
        exact inv
    · split
      · exact inv
      · split
        · split
          · exact inv
          · exact inv
        · exact inv

/-- C5: in every reachable controller state, `pending_wr_q` holds at most
one entry per address: `add_transaction` inserts a write into `pending_wr_q`
only when the address is absent and otherwise only overwrites the existing
pending entry's payload; `issue_command` of a WRITE removes the single
entry; no other operation touches the map. -/
theorem c5_pending_wr_at_most_one (cfg : Config) (st : CtrlState)
    (h : Reachable cfg st) (a : Nat) : countKey st.pending_wr_q a ≤ 1 := by
  induction h with
  | init => simp [initState, countKey]
  | step hr hst ih =>
    cases hst with
    | add t => exact addTransaction_pending_wr_le cfg _ t a ih
    | tick orc cmds hck =>
      exact Nat.le_trans ((clockTick_effects cfg orc _ _ cmds hck).2 a) ih
    | drain clk => exact ih

/-- Every transaction sitting in `mrs_buffer_` of a reachable state is an
MRS transaction: only the MRS branch of `AddTransaction` pushes there, and
`ScheduleTransaction` only ever removes its head. -/
theorem reachable_mrs_only (cfg : Config) (st : CtrlState)
    (h : Reachable cfg st) : ∀ x ∈ st.mrs_buffer, x.is_MRS = true := by
  induction h with
  | init => intro x hx; simp [initState] at hx
  | step hr hst ih =>
    cases hst with
    | add t =>
      intro x hx
      rcases addTransaction_mrs_mem cfg _ t x hx with h1 | h1
      · exact ih x h1
      · exact h1
    | tick orc cmds hck =>
      intro x hx
      exact ih x ((clockTick_effects cfg orc _ _ cmds hck).1 x hx)
    | drain clk => intro x hx; exact ih x hx

theorem schedLoop_write_safe (cfg : Config) (wa : Nat → Bool)
    (prd : List (Nat × Trans)) (c : Command)
    (hu : cfg.unified_queue = false) (hw : c.IsWrite = true) :
    ∀ (wd : Nat) (q : List Trans),
      (schedLoop cfg wa prd wd q).2.2 = some c →
      countKey prd c.hex_addr = 0 := by
  intro wd q
  induction q generalizing wd with
  | nil => intro hc; exact Option.noConfusion hc
  | cons t rest ih =>
    intro hc
    simp only [schedLoop] at hc
    split at hc
    · split at hc
      case isTrue hcond =>
        split at hc
        case isTrue hcnt => exact Option.noConfusion hc
        case isFalse hcnt =>
          dsimp only at hc
          simp only [Option.some.injEq] at hc
          subst hc
          have : (transToCommand cfg t).hex_addr = t.addr := rfl
          rw [this]
          omega
      case isFalse hcond =>
        dsimp only at hc
        simp only [Option.some.injEq] at hc
        subst hc
        exact absurd ⟨hu, hw⟩ hcond
    · dsimp only at hc
      exact ih wd hc

/-- C1 (amended): in split-queue mode, no WRITE (or WRITE_PRECHARGE) command
is pushed into the command queue by `schedule_transaction` while
`pending_rd_q` still contains an entry for that command's address, for every
reachable controller state and every collaborator behaviour.  (In
unified-queue mode the source performs no such check; see the
counterexample.) -/
theorem c1_split_no_write_while_read_pending (cfg : Config) (st : CtrlState)
    (wam : Bool) (wa : Nat → Bool) (e : Bool) (st' : CtrlState) (c : Command)
    (hu : cfg.unified_queue = false) (hre : Reachable cfg st)
    (hs : scheduleTransaction cfg wam wa e st = (st', some c))
    (hw : c.IsWrite = true) :
    countKey st.pending_rd_q c.hex_addr = 0 := by
  unfold scheduleTransaction at hs
  dsimp only at hs
  split at hs
  case _ t rest heq =>
    have hmrs : t.is_MRS = true :=
      reachable_mrs_only cfg st hre t (by rw [heq]; exact List.mem_cons_self _ _)
    split at hs
    · simp only [Prod.mk.injEq, Option.some.injEq] at hs
      obtain ⟨_, hc⟩ := hs
      subst hc
      have : (transToCommand cfg t).IsWrite = false := by
        simp [transToCommand, hmrs, Command.IsWrite]
      rw [this] at hw
      exact Bool.noConfusion hw
    · simp only [Prod.mk.injEq] at hs
      exact Option.noConfusion hs.2
  case _ heq =>
    split at hs
    case isTrue hun => rw [hu] at hun; exact Bool.noConfusion hun
    case isFalse hun =>
      split at hs <;>
        (simp only [Prod.mk.injEq] at hs
         exact schedLoop_write_safe cfg wa st.pending_rd_q c hu hw _ _ hs.2)

/-- C7: in split-queue mode, whenever `schedule_transaction` runs with
`write_draining == 0`, the drain-entry decision sets `write_draining` to the
current write-buffer length exactly when the length is at least the capacity,
or the length exceeds 8 while the command queue is empty (so length 9 with an
empty command queue starts a drain); when the condition fails, the whole
`schedule_transaction` call leaves `write_draining` at 0. -/
theorem c7_write_drain_entry (cfg : Config) (st : CtrlState) (wam : Bool)
    (wa : Nat → Bool) (e : Bool)
    (hu : cfg.unified_queue = false) (h0 : st.write_draining = 0) :
    writeDrainEnter cfg e st =
      (if cfg.trans_queue_size ≤ st.write_buffer.length ∨
          (8 < st.write_buffer.length ∧ e = true) then
        st.write_buffer.length else 0) ∧
    (¬(cfg.trans_queue_size ≤ st.write_buffer.length ∨
        (8 < st.write_buffer.length ∧ e = true)) →
      (scheduleTransaction cfg wam wa e st).1.write_draining = 0) := by
  constructor
  · rw [writeDrainEnter, if_pos ⟨h0, hu⟩]
    by_cases hc : cfg.trans_queue_size ≤ st.write_buffer.length ∨
        (8 < st.write_buffer.length ∧ e = true)
    · rw [if_pos hc, if_pos hc]
    · rw [if_neg hc, if_neg hc, h0]
  · intro hc
    have hwd : writeDrainEnter cfg e st = 0 := by
      rw [writeDrainEnter, if_pos ⟨h0, hu⟩, if_neg hc, h0]
    unfold scheduleTransaction
    dsimp only
    rw [hwd]
    split
    · split <;> rfl
    · split
      case isTrue hun => rw [hu] at hun; exact Bool.noConfusion hun
      case isFalse hun =>
        split
        case isTrue h00 => exact absurd h00 (by omega)
        case isFalse h00 =>
          dsimp only
          have hle := schedLoop_wd_le cfg wa st.pending_rd_q 0 st.read_queue
          omega

/-- C8 (amended): with HBM dual issue enabled, after a first command is
issued in a tick, a second valid command obtained from the command queue is
issued in the same tick if and only if its `IsReadWrite` flag — whether the
command is a read-or-write (column) command at all — differs from the
first's.  In particular a read paired with a write is NOT dual-issued (both
are read-write commands), while a read or write paired with an
activate/precharge-class command is. -/
theorem c8_dual_issue_iff (cfg : Config) (orc : TickOracle)
    (st st' : CtrlState) (cmds : List Command) (c1 c2 : Command)
    (h : clockTick cfg orc st = some (st', cmds))
    (h1 : orc.firstCmd = some c1) (h2 : orc.secondCmd = some c2)
    (hne : c2 ≠ c1) :
    c2 ∈ cmds ↔
      (cfg.enable_hbm_dual_cmd = true ∧ c1.IsReadWrite ≠ c2.IsReadWrite) := by
  unfold clockTick at h
  split at h
  case _ => exact Option.noConfusion h
  case _ st1 hl =>
    split at h
    case _ => exact Option.noConfusion h
    case _ st2 issued hi =>
      simp only [Option.some.injEq, Prod.mk.injEq] at h
      obtain ⟨_, hcm⟩ := h
      subst hcm
      unfold issuePhase at hi
      rw [h1] at hi
      dsimp only at hi
      split at hi
      case _ => exact Option.noConfusion hi
      case _ stA hic =>
        by_cases hh : cfg.enable_hbm_dual_cmd = true
        · rw [if_pos hh] at hi
          rw [h2] at hi
          dsimp only at hi
          by_cases hd : c2.IsReadWrite ≠ c1.IsReadWrite
          · rw [if_pos hd] at hi
            split at hi
            case _ stB hic2 =>
              simp only [Option.some.injEq, Prod.mk.injEq] at hi
              obtain ⟨_, hcmds⟩ := hi
              subst hcmds
              constructor
              · intro _
                exact ⟨hh, Ne.symm hd⟩
              · intro _
                simp
            case _ hic2 => exact Option.noConfusion hi
          · rw [if_neg hd] at hi
            simp only [Option.some.injEq, Prod.mk.injEq] at hi
            obtain ⟨_, hcmds⟩ := hi
            subst hcmds
            constructor
            · intro hmem
              simp only [List.mem_singleton] at hmem
              exact absurd hmem hne
            · intro ⟨_, hd'⟩
              exact absurd (Ne.symm hd') hd
        · rw [if_neg hh] at hi
          simp only [Option.some.injEq, Prod.mk.injEq] at hi
          obtain ⟨_, hcmds⟩ := hi
          subst hcmds
          constructor
          · intro hmem
            simp only [List.mem_singleton] at hmem
            exact absurd hmem hne
          · intro ⟨hh', _⟩
            exact absurd hh' hh

/-- The LRDIMM response merge loop updates every matching entry and reports
whether any entry matched. -/
theorem lrdimmMerge_spec (rq : List Trans) (a : Nat) (pl : List Nat) :
    lrdimmMerge rq a pl =
      (rq.map (fun t => if t.addr == a then { t with payload := pl } else t),
        rq.any (fun t => t.addr == a)) := by
  induction rq with
  | nil => rfl
  | cons t rest ih =>
    by_cases h : (t.addr == a) = true
    · have h' : t.addr = a := by simpa using h
      simp [lrdimmMerge, h, ih, List.any_cons, h']
    · have h' : ¬t.addr = a := by simpa using h
      simp [lrdimmMerge, h, ih, List.any_cons, h']

/-- C10: when `clock_tick` drains an LRDIMM read response, the response
payload is copied into every `return_queue` entry whose address equals the
response's `hex_addr` — not only one matching entry, and including
write-acknowledgement entries still pending at that address — and the
simulation aborts (the `assert(isResp)`) exactly when no entry at all
matches. -/
theorem c10_lrdimm_merge_all_matching (rq : List Trans) (a : Nat)
    (pl : List Nat) (cfg : Config) (orc : TickOracle) (st : CtrlState) :
    lrdimmMerge rq a pl =
      (rq.map (fun t => if t.addr == a then { t with payload := pl } else t),
        rq.any (fun t => t.addr == a)) ∧
    (cfg.is_LRDIMM = true → orc.resp = some (a, pl) →
      st.return_queue.any (fun t => t.addr == a) = false →
      clockTick cfg orc st = none) := by
  refine ⟨lrdimmMerge_spec rq a pl, ?_⟩
  intro hL hresp hnone
  have hphase : lrdimmPhase cfg orc.resp st = none := by
    unfold lrdimmPhase
    rw [hL, hresp]
    dsimp only
    rw [lrdimmMerge_spec st.return_queue a pl]
    dsimp only
    rw [hnone]
    rfl
  unfold clockTick
  rw [hphase]

/-! ### Counterexamples and witnesses at concrete inputs -/

/-- C1, counterexample: the claim fails in unified-queue mode.  At a
reachable unified-queue state — `read 256` admitted at cycle 0, promoted
into the command queue by the tick's scheduler while its READ command has
not yet issued, then `write 256` admitted at cycle 1 — `schedule_transaction`
pushes `WRITE 256` into the command queue although `pending_rd_q` still
contains an entry for address 256: the R→W dependency check at
controller.cc:328-333 is guarded by `!is_unified_queue_`. -/
theorem c1_counterexample_unified :
    Reachable cfgU stC1 ∧
    (scheduleTransaction cfgU true (fun _ => true) false stC1).2 =
      some { cmd_type := CommandType.WRITE, hex_addr := 256 } ∧
    0 < countKey stC1.pending_rd_q 256 := by
  refine ⟨?_, by decide, by decide⟩
  have h1 : Reachable cfgU stC1a :=
    Reachable.step Reachable.init (Step.add tRd256)
  have h2 : Reachable cfgU stC1b :=
    Reachable.step h1 (Step.tick orcIdle [] (by decide))
  exact Reachable.step h2 (Step.add tWr256)

/-- C1 witness: the amended (split-queue) theorem applied at a concrete
reachable state where a write is actually scheduled. -/
theorem c1_amended_witness : countKey stC1w.pending_rd_q 256 = 0 :=
  c1_split_no_write_while_read_pending cfgS stC1w true (fun _ => true) false
    { stC1w with write_buffer := [], write_draining := 0 }
    { cmd_type := CommandType.WRITE, hex_addr := 256 } rfl
    (Reachable.step Reachable.init (Step.add tWr256)) (by decide) rfl

/-- C2 witness: issuing `READ 3` at cycle 5 with two coalesced pending reads
completes both at cycle 5 + 10 + (4 + 2) = 21 under the LRDIMM
configuration. -/
theorem c2_witness :
    issueCommand cfgL stC2 { cmd_type := CommandType.READ, hex_addr := 3 } =
      some { stC2 with
          pending_rd_q := [],
          return_queue := [{ rd3a with complete_cycle := 21 },
            { rd3b with complete_cycle := 21 }] } := by
  rw [c2_read_coalesced_completion cfgL stC2
    { cmd_type := CommandType.READ, hex_addr := 3 } rfl (by decide)]
  decide

/-- C3 witness: a read to address 7 forwarded from the pending write with
payload `[3]`, completing at cycle 4 + 1. -/
theorem c3_witness :
    (addTransaction cfgS stC3 tRd7).2 = true ∧
    (addTransaction cfgS stC3 tRd7).1.return_queue =
      stC3.return_queue ++
        [{ tRd7 with
            added_cycle := stC3.clk,
            complete_cycle := stC3.clk + 1,
            payload := wr7.payload }] ∧
    (addTransaction cfgS stC3 tRd7).1.pending_rd_q = stC3.pending_rd_q ∧
    (addTransaction cfgS stC3 tRd7).1.read_queue = stC3.read_queue ∧
    (addTransaction cfgS stC3 tRd7).1.unified_queue = stC3.unified_queue :=
  c3_read_after_write_forwarding cfgS stC3 tRd7 wr7 rfl rfl (by decide)

/-- C4 witness: a write that merges into the pending write on address 7 is
still acknowledged at `added_cycle + 1`. -/
theorem c4_witness :
    (addTransaction cfgS stC3 tWr7b).2 = true ∧
    (addTransaction cfgS stC3 tWr7b).1.return_queue =
      stC3.return_queue ++
        [{ tWr7b with
            added_cycle := stC3.clk,
            complete_cycle := stC3.clk + 1 }] :=
  c4_write_posted_ack cfgS stC3 tWr7b rfl rfl

/-- C5 witness: after two writes to address 256 the pending-write map holds
at most one entry for it. -/
theorem c5_witness : countKey stC5.pending_wr_q 256 ≤ 1 :=
  c5_pending_wr_at_most_one cfgS stC5
    (Reachable.step (Reachable.step Reachable.init (Step.add tWr256))
      (Step.add tWr256b)) 256

/-- C7 witness: nine buffered writes with an empty command queue start a
drain with `write_draining = 9` (the claim's boundary case). -/
theorem c7_witness : writeDrainEnter cfgB true stC7 = 9 := by
  have h := (c7_write_drain_entry cfgB stC7 true (fun _ => true) true rfl rfl).1
  rw [h]
  decide

/-- C8, counterexample: with HBM dual issue enabled, a READ paired with a
valid second WRITE is NOT issued in the same tick — both have
`IsReadWrite = true`, and controller.cc:136 requires the flags to differ —
contradicting the claim that a read paired with a write (read/write-ness
differing in the read-versus-write sense) is dual-issued.  The state is
reachable and holds a pending read on 9 and a pending write on 4, so both
commands are plausible command-queue answers; only `READ 9` issues. -/
theorem c8_counterexample_read_write_pair :
    Reachable cfgH stC8 ∧
    cfgH.enable_hbm_dual_cmd = true ∧
    orcRW.firstCmd = some { cmd_type := CommandType.READ, hex_addr := 9 } ∧
    orcRW.secondCmd = some { cmd_type := CommandType.WRITE, hex_addr := 4 } ∧
    (clockTick cfgH orcRW stC8).map Prod.snd =
      some [{ cmd_type := CommandType.READ, hex_addr := 9 }] := by
  refine ⟨?_, rfl, rfl, rfl, by decide⟩
  exact Reachable.step (Reachable.step Reachable.init (Step.add tRd9))
    (Step.add tWr4)

/-- C8 witness: the amended theorem at a concrete tick in which `READ 9`
dual-issues with `ACTIVATE 4` (their `IsReadWrite` flags differ). -/
theorem c8_amended_witness :
    ({ cmd_type := CommandType.ACTIVATE, hex_addr := 4 } : Command) ∈
        [({ cmd_type := CommandType.READ, hex_addr := 9 } : Command),
          { cmd_type := CommandType.ACTIVATE, hex_addr := 4 }] ↔
      (cfgH.enable_hbm_dual_cmd = true ∧
        Command.IsReadWrite { cmd_type := CommandType.READ, hex_addr := 9 } ≠
          Command.IsReadWrite { cmd_type := CommandType.ACTIVATE, hex_addr := 4 }) :=
  c8_dual_issue_iff cfgH orcDual stC8w stC8w'
    [{ cmd_type := CommandType.READ, hex_addr := 9 },
      { cmd_type := CommandType.ACTIVATE, hex_addr := 4 }]
    { cmd_type := CommandType.READ, hex_addr := 9 }
    { cmd_type := CommandType.ACTIVATE, hex_addr := 4 }
    (by decide) rfl rfl (by decide)

/-- C9 witness: with the write buffer already at capacity (1 entry,
`trans_queue_size = 1`), `add_transaction` still enqueues a new write and
returns `true`, while `will_accept_transaction` answers `false`. -/
theorem c9_witness :
    (addTransaction cfgS stC9 tWr4).2 = true ∧
    (addTransaction cfgS stC9 tWr4).1.write_buffer.length =
      stC9.write_buffer.length + 1 ∧
    willAcceptTransaction cfgS stC9 tWr4.addr true = false := by
  have h := c9_add_transaction_unconditional cfgS stC9 tWr4
  refine ⟨h.1, h.2.2.1 rfl rfl (by decide) rfl, ?_⟩
  rw [h.2.2.2 rfl]
  decide

/-- C10 witness: the response `(5, [42])` is copied into both matching
entries — the write acknowledgement and the read — and an LRDIMM response
with no matching return entry aborts the tick. -/
theorem c10_witness :
    lrdimmMerge rqC10 5 [42] =
      ([{ wrAck5 with payload := [42] }, rd6, { rd5 with payload := [42] }],
        true) ∧
    clockTick cfgL orcResp5 initState = none := by
  have h := c10_lrdimm_merge_all_matching rqC10 5 [42] cfgL orcResp5 initState
  refine ⟨?_, h.2 rfl rfl rfl⟩
  rw [h.1]
  decide

end DRAMsim3
